import Mathlib

/-!
# Verification of flask-media-dl against its specification

Shallow embedding of the relevant parts of the repository:

* `flask_media_dl/utils.py` — identifier classification (`get_id_type`).
* `flask_media_dl/downloaders/youtube_downloader.py` — the download phase
  (`download_video`, `download_thumbnail`, `download_video_files_batch`,
  the round-robin batch partition of `download_video_files`, the
  failure-threshold check of `run`, and file-mode size parsing of
  `extract_videos_info`).
* `flask_media_dl/platforms/youtube.py` — channel-playlist retrieval and
  merging (`get_channel_playlists_json`, `merge_playlists`), video-detail
  enrichment (`get_video_json`), and subsetting (`subset_videos_json`).

Machine integers do not occur (Python has arbitrary-precision ints);
Python floats that are produced by `float(...)` / `int(...)` on the
values reachable in the claims are modelled with exact arithmetic.
Fallible code returns `Except PyErr`, whose constructors name the Python
exception raised at the corresponding program point.
-/

set_option autoImplicit false

namespace FlaskMediaDL

/-- The Python exceptions / fatal exits observable in the embedded code. -/
inductive PyErr where
  /-- `TypeError` (e.g. `len(None)`, iterating `None`, subscripting). -/
  | typeError
  /-- `FileNotFoundError` from `os.remove` on a missing file. -/
  | fileNotFoundError
  /-- `ValueError` from `list.remove` on an absent element. -/
  | valueError
  /-- `AttributeError` (e.g. `None.remove`, `dict.remove`). -/
  | attributeError
  /-- the `ValueError("optimize_number must be 0 or >= 3")` of
  `get_channel_playlists_json` (the spec's InvalidInput). -/
  | invalidInput
  /-- `UnboundLocalError`: reading a local variable never assigned. -/
  | unboundLocalError
  /-- `IndexError`: `l[-1]` on an empty list. -/
  | indexError
  /-- the `OSError("Too much videos failed to download")` raised by
  `YoutubeDownload.run` (the spec's FatalThreshold). -/
  | fatalThreshold
  /-- `ValueError` from `float("")` / `float` on a non-numeric string. -/
  | floatValueError
  /-- `sys.exit(1)` on an unknown size suffix. -/
  | sysExit
  deriving DecidableEq, Repr

/-! ## `utils.get_id_type` (claims C8, C9)

The source classifies with `re.match` against anchored patterns.  Python
`re` semantics: `re.match` anchors at the start of the string, and with
the pattern ending in `$` the match must reach the end of the string or
the position just before a single final `'\n'` (Python's documented `$`
behaviour without `re.MULTILINE`).  Since `'\n'` belongs to none of the
character classes used, the greedy quantifier admits exactly one
possible split, which the executable matchers below compute. -/

/-- The character class `[-_a-zA-Z0-9]` (`Char.isAlpha`/`isDigit` are the
ASCII ranges, matching the literal ranges in the pattern). -/
def classChar (c : Char) : Bool :=
  c = '-' || c = '_' || c.isAlpha || c.isDigit

/-- The character class `[a-zA-Z0-9]`. -/
def alnumChar (c : Char) : Bool :=
  c.isAlpha || c.isDigit

/-- Python `$` (no `re.MULTILINE`): succeeds at the end of the string or
just before a single trailing `'\n'`. -/
def dollarEnd (l : List Char) : Bool :=
  l.isEmpty || l = ['\n']

/-- `re.match(r"^PL[-_a-zA-Z0-9]{16,}$", s)` as a Bool. -/
def matchPL (s : String) : Bool :=
  match s.data with
  | c1 :: c2 :: rest =>
      c1 == 'P' && c2 == 'L'
        && decide (16 ≤ (rest.takeWhile classChar).length)
        && dollarEnd (rest.dropWhile classChar)
  | _ => false

/-- `re.match(r"^UC[-_a-zA-Z0-9]{22,}$", s)` as a Bool. -/
def matchUC (s : String) : Bool :=
  match s.data with
  | c1 :: c2 :: rest =>
      c1 == 'U' && c2 == 'C'
        && decide (22 ≤ (rest.takeWhile classChar).length)
        && dollarEnd (rest.dropWhile classChar)
  | _ => false

/-- `re.match(r"^[a-zA-Z0-9]+$", s)` as a Bool. -/
def matchAlnum (s : String) : Bool :=
  decide (1 ≤ (s.data.takeWhile alnumChar).length)
    && dollarEnd (s.data.dropWhile alnumChar)

/-- The argument of `get_id_type`: Python `None`, a `str`, or a `list`
of `str`. -/
inductive YoutubeId where
  | null
  | str (s : String)
  | list (l : List String)

/-- The result values `'playlist'`, `'channel'`, `'user'` of
`get_id_type` (`None` is `Option.none`). -/
inductive IdKind where
  | playlist
  | channel
  | user
  deriving DecidableEq, Repr

/-- `utils.get_id_type`: sequential `re.match` checks; for a list input,
`all(re.match(PL, i) for i in id)`.  A list whose elements all match is
`playlist`, otherwise `None`; note the implicit `None` fall-through. -/
def get_id_type : YoutubeId → Option IdKind
  | .null => none
  | .str s =>
      if matchPL s then some .playlist
      else if matchUC s then some .channel
      else if matchAlnum s then some .user
      else none
  | .list l =>
      if l.all matchPL then some .playlist else none

/-- Declarative reading of `^PL[-_a-zA-Z0-9]{16,}$` under Python `re`
semantics. -/
def PLSpec (s : String) : Prop :=
  ∃ body tail, s.data = 'P' :: 'L' :: (body ++ tail) ∧
    (∀ c ∈ body, classChar c = true) ∧ 16 ≤ body.length ∧
    (tail = [] ∨ tail = ['\n'])

/-- Declarative reading of `^UC[-_a-zA-Z0-9]{22,}$`. -/
def UCSpec (s : String) : Prop :=
  ∃ body tail, s.data = 'U' :: 'C' :: (body ++ tail) ∧
    (∀ c ∈ body, classChar c = true) ∧ 22 ≤ body.length ∧
    (tail = [] ∨ tail = ['\n'])

/-- Declarative reading of `^[a-zA-Z0-9]+$`. -/
def AlnumSpec (s : String) : Prop :=
  ∃ body tail, s.data = body ++ tail ∧
    (∀ c ∈ body, alnumChar c = true) ∧ 1 ≤ body.length ∧
    (tail = [] ∨ tail = ['\n'])

theorem takeWhile_append_of_forall {p : Char → Bool} :
    ∀ (body tail : List Char), (∀ c ∈ body, p c = true) →
      (tail = [] ∨ ∃ c rest, tail = c :: rest ∧ p c = false) →
      (body ++ tail).takeWhile p = body ∧ (body ++ tail).dropWhile p = tail := by
  intro body
  induction body with
  | nil =>
      intro tail _ htail
      rcases htail with h | ⟨c, rest, rfl, hc⟩
      · subst h; exact ⟨rfl, rfl⟩
      · simp [List.takeWhile, List.dropWhile, hc]
  | cons x xs ih =>
      intro tail hall htail
      have hx : p x = true := hall x (by simp)
      have := ih tail (fun c hc => hall c (by simp [hc])) htail
      simp [List.takeWhile, List.dropWhile, hx, this.1, this.2]

theorem newline_not_classChar : classChar '\n' = false := by decide

theorem newline_not_alnumChar : alnumChar '\n' = false := by decide

theorem dollarEnd_eq_true (l : List Char) :
    dollarEnd l = true ↔ (l = [] ∨ l = ['\n']) := by
  cases l <;> simp [dollarEnd]

theorem matchPL_iff (s : String) : matchPL s = true ↔ PLSpec s := by
  constructor
  · intro h
    unfold matchPL at h
    rcases hd : s.data with _ | ⟨c1, _ | ⟨c2, rest⟩⟩ <;> rw [hd] at h
    · simp at h
    · simp at h
    · simp only [Bool.and_eq_true, beq_iff_eq, decide_eq_true_eq] at h
      obtain ⟨⟨⟨h1, h2⟩, hlen⟩, hend⟩ := h
      subst h1; subst h2
      refine ⟨rest.takeWhile classChar, rest.dropWhile classChar,
        ?_, ?_, hlen, (dollarEnd_eq_true _).1 hend⟩
      · rw [hd, List.takeWhile_append_dropWhile]
      · intro c hc; exact List.mem_takeWhile_imp hc
  · rintro ⟨body, tail, hdec, hall, hlen, htail⟩
    have hsplit := takeWhile_append_of_forall body tail hall
      (by rcases htail with rfl | rfl
          · exact Or.inl rfl
          · exact Or.inr ⟨'\n', [], rfl, newline_not_classChar⟩)
    unfold matchPL
    rw [hdec]
    simp only [hsplit.1, hsplit.2, Bool.and_eq_true, beq_self_eq_true,
      Bool.true_and, decide_eq_true_eq, dollarEnd_eq_true]
    exact ⟨hlen, htail⟩

theorem matchUC_iff (s : String) : matchUC s = true ↔ UCSpec s := by
  constructor
  · intro h
    unfold matchUC at h
    rcases hd : s.data with _ | ⟨c1, _ | ⟨c2, rest⟩⟩ <;> rw [hd] at h
    · simp at h
    · simp at h
    · simp only [Bool.and_eq_true, beq_iff_eq, decide_eq_true_eq] at h
      obtain ⟨⟨⟨h1, h2⟩, hlen⟩, hend⟩ := h
      subst h1; subst h2
      refine ⟨rest.takeWhile classChar, rest.dropWhile classChar,
        ?_, ?_, hlen, (dollarEnd_eq_true _).1 hend⟩
      · rw [hd, List.takeWhile_append_dropWhile]
      · intro c hc; exact List.mem_takeWhile_imp hc
  · rintro ⟨body, tail, hdec, hall, hlen, htail⟩
    have hsplit := takeWhile_append_of_forall body tail hall
      (by rcases htail with rfl | rfl
          · exact Or.inl rfl
          · exact Or.inr ⟨'\n', [], rfl, newline_not_classChar⟩)
    unfold matchUC
    rw [hdec]
    simp only [hsplit.1, hsplit.2, Bool.and_eq_true, beq_self_eq_true,
      Bool.true_and, decide_eq_true_eq, dollarEnd_eq_true]
    exact ⟨hlen, htail⟩

theorem matchAlnum_iff (s : String) : matchAlnum s = true ↔ AlnumSpec s := by
  constructor
  · intro h
    unfold matchAlnum at h
    simp only [Bool.and_eq_true, decide_eq_true_eq] at h
    refine ⟨s.data.takeWhile alnumChar, s.data.dropWhile alnumChar,
      (List.takeWhile_append_dropWhile alnumChar s.data).symm, ?_, h.1,
      (dollarEnd_eq_true _).1 h.2⟩
    intro c hc; exact List.mem_takeWhile_imp hc
  · rintro ⟨body, tail, hdec, hall, hlen, htail⟩
    have hsplit := takeWhile_append_of_forall body tail hall
      (by rcases htail with rfl | rfl
          · exact Or.inl rfl
          · exact Or.inr ⟨'\n', [], rfl, newline_not_alnumChar⟩)
    unfold matchAlnum
    rw [hdec]
    simp only [hsplit.1, hsplit.2, Bool.and_eq_true,
      decide_eq_true_eq, dollarEnd_eq_true]
    exact ⟨hlen, htail⟩

/-- C8: the identifier classification operation is total and applies its
rules in order: null input is absent; a string matching
`^PL[-_a-zA-Z0-9]{16,}$` is playlist; otherwise one matching
`^UC[-_a-zA-Z0-9]{22,}$` is channel; otherwise one matching
`^[a-zA-Z0-9]+$` is user; any other string is absent; a list is
playlist exactly when every element matches the playlist pattern
(pattern matching as performed by Python `re.match`). -/
theorem c8_get_id_type_classification :
    get_id_type .null = none ∧
    (∀ s, PLSpec s → get_id_type (.str s) = some .playlist) ∧
    (∀ s, ¬ PLSpec s → UCSpec s → get_id_type (.str s) = some .channel) ∧
    (∀ s, ¬ PLSpec s → ¬ UCSpec s → AlnumSpec s →
      get_id_type (.str s) = some .user) ∧
    (∀ s, ¬ PLSpec s → ¬ UCSpec s → ¬ AlnumSpec s →
      get_id_type (.str s) = none) ∧
    (∀ l, (∀ s ∈ l, PLSpec s) → get_id_type (.list l) = some .playlist) ∧
    (∀ l s, s ∈ l → ¬ PLSpec s → get_id_type (.list l) = none) := by
  refine ⟨rfl, ?_, ?_, ?_, ?_, ?_, ?_⟩
  · intro s hs
    simp [get_id_type, (matchPL_iff s).2 hs]
  · intro s hpl huc
    have h1 : matchPL s = false := by
      rcases h : matchPL s with _ | _
      · rfl
      · exact absurd ((matchPL_iff s).1 h) hpl
    simp [get_id_type, h1, (matchUC_iff s).2 huc]
  · intro s hpl huc hal
    have h1 : matchPL s = false := by
      rcases h : matchPL s with _ | _
      · rfl
      · exact absurd ((matchPL_iff s).1 h) hpl
    have h2 : matchUC s = false := by
      rcases h : matchUC s with _ | _
      · rfl
      · exact absurd ((matchUC_iff s).1 h) huc
    simp [get_id_type, h1, h2, (matchAlnum_iff s).2 hal]
  · intro s hpl huc hal
    have h1 : matchPL s = false := by
      rcases h : matchPL s with _ | _
      · rfl
      · exact absurd ((matchPL_iff s).1 h) hpl
    have h2 : matchUC s = false := by
      rcases h : matchUC s with _ | _
      · rfl
      · exact absurd ((matchUC_iff s).1 h) huc
    have h3 : matchAlnum s = false := by
      rcases h : matchAlnum s with _ | _
      · rfl
      · exact absurd ((matchAlnum_iff s).1 h) hal
    simp [get_id_type, h1, h2, h3]
  · intro l hl
    have : l.all matchPL = true := by
      rw [List.all_eq_true]
      intro s hs
      exact (matchPL_iff s).2 (hl s hs)
    simp [get_id_type, this]
  · intro l s hs hpl
    have : l.all matchPL = false := by
      rcases h : l.all matchPL with _ | _
      · rfl
      · exact absurd ((matchPL_iff s).1 (List.all_eq_true.1 h s hs)) hpl
    simp [get_id_type, this]

theorem c8_get_id_type_classification_witness :
    get_id_type (.str "PLaaaaaaaaaaaaaaaa") = some .playlist ∧
    get_id_type (.str "UCbbbbbbbbbbbbbbbbbbbbbb") = some .channel ∧
    get_id_type (.str "user01") = some .user ∧
    get_id_type (.str "a b") = none := by
  have hplspec : PLSpec "PLaaaaaaaaaaaaaaaa" :=
    ⟨List.replicate 16 'a', [], by decide, by decide, by decide, Or.inl rfl⟩
  have hucspec : UCSpec "UCbbbbbbbbbbbbbbbbbbbbbb" :=
    ⟨List.replicate 22 'b', [], by decide, by decide, by decide, Or.inl rfl⟩
  have halspec : AlnumSpec "user01" :=
    ⟨['u', 's', 'e', 'r', '0', '1'], [], by decide, by decide, by decide,
      Or.inl rfl⟩
  have hnpl1 : ¬ PLSpec "UCbbbbbbbbbbbbbbbbbbbbbb" := fun hp =>
    absurd ((matchPL_iff _).2 hp) (by decide)
  have hnpl2 : ¬ PLSpec "user01" := fun hp =>
    absurd ((matchPL_iff _).2 hp) (by decide)
  have hnuc2 : ¬ UCSpec "user01" := fun hp =>
    absurd ((matchUC_iff _).2 hp) (by decide)
  have hnpl3 : ¬ PLSpec "a b" := fun hp =>
    absurd ((matchPL_iff _).2 hp) (by decide)
  have hnuc3 : ¬ UCSpec "a b" := fun hp =>
    absurd ((matchUC_iff _).2 hp) (by decide)
  have hnal3 : ¬ AlnumSpec "a b" := fun hp =>
    absurd ((matchAlnum_iff _).2 hp) (by decide)
  exact ⟨c8_get_id_type_classification.2.1 _ hplspec,
    c8_get_id_type_classification.2.2.1 _ hnpl1 hucspec,
    c8_get_id_type_classification.2.2.2.1 _ hnpl2 hnuc2 halspec,
    c8_get_id_type_classification.2.2.2.2.1 _ hnpl3 hnuc3 hnal3⟩

/-- C9: the classification of the empty list: `all(...)` over an empty
generator is vacuously `True`, so `get_id_type([])` is `'playlist'`,
not `None`. -/
theorem c9_get_id_type_empty_list :
    get_id_type (.list []) = some .playlist := rfl

/-! ## `YoutubeDownload.download_video` / `download_thumbnail` /
`download_video_files_batch` (claim C1)

`download_video` and `download_thumbnail` are documented to "return True
if successful", but neither ever returns `True`: on the success path the
function falls off the end (Python returns `None`), and on a caught
download/post-processing failure it returns `False`.  Both `None` and
`False` are falsy.  The external outcomes (whether the retrieval engine
and post-processing succeed or raise one of the caught exception types)
are an oracle `DLEnv`; uncaught exception types abort the whole batch
and are outside this model. -/

/-- Oracle for per-video outcomes of the external engine/transcoder:
whether the video step and the thumbnail step of a given id succeed. -/
structure DLEnv where
  videoOk : String → Bool
  thumbOk : String → Bool

/-- Python value returned by `download_video`/`download_thumbnail`:
`None` (implicit, on the success path) or `False` (on caught failure). -/
inductive PyRet where
  | noneVal
  | falseVal
  deriving DecidableEq, Repr

/-- Python truthiness of the possible return values (both falsy). -/
def truthy : PyRet → Bool
  | .noneVal => false
  | .falseVal => false

/-- `YoutubeDownload.download_video`: try-block succeeds → fall through
(`None`); caught `DownloadError`/`FileNotFoundError`/
`CalledProcessError` → `return False`. -/
def download_video (env : DLEnv) (video_id : String) : PyRet :=
  if env.videoOk video_id then .noneVal else .falseVal

/-- `YoutubeDownload.download_thumbnail`: same return structure as
`download_video`. -/
def download_thumbnail (env : DLEnv) (video_id : String) : PyRet :=
  if env.thumbOk video_id then .noneVal else .falseVal

/-- `YoutubeDownload.download_video_files_batch`: for each id, append to
`succeeded` iff `download_video(...) and download_thumbnail(...)` is
truthy, else to `failed` (subtitles, fetched on the success path only,
have no effect on the lists). -/
def download_video_files_batch (env : DLEnv) (videos_ids : List String) :
    List String × List String :=
  videos_ids.foldl
    (fun acc video_id =>
      if truthy (download_video env video_id)
          && truthy (download_thumbnail env video_id) then
        (acc.1 ++ [video_id], acc.2)
      else
        (acc.1, acc.2 ++ [video_id]))
    ([], [])

/-- C1 (code bug): a video id whose video step and thumbnail step both
succeed is nevertheless recorded as failed, because `download_video`
and `download_thumbnail` return `None` (falsy) on success although their
docstrings say "return True if successful".  Evaluating the batch on an
environment where every step succeeds: the succeeded list is empty and
every processed id is in the failed list. -/
theorem c1_download_batch_success_recorded_failed :
    download_video_files_batch ⟨fun _ => true, fun _ => true⟩ ["vid-ok"]
        = ([], ["vid-ok"]) ∧
    download_video_files_batch ⟨fun _ => true, fun _ => true⟩
        ["a", "b", "c"] = ([], ["a", "b", "c"]) := ⟨rfl, rfl⟩

/-! ## `YoutubeDownload.run`: failure threshold (claim C2) -/

/-- The failure-threshold check of `YoutubeDownload.run` on the
accumulated succeeded/failed id lists: `if failed:` then
`if len(failed) >= len(succeeded): raise OSError(...)`; otherwise the
run proceeds to author enrichment. -/
def check_failed_videos (succeeded failed : List String) :
    Except PyErr Unit :=
  if failed.isEmpty then .ok ()
  else if succeeded.length ≤ failed.length then .error .fatalThreshold
  else .ok ()

/-- C2: the run aborts with the fatal threshold error exactly when at
least one failure occurred and the failed count is at least the
succeeded count; it proceeds exactly when there were no failures or the
failed count is strictly below the succeeded count. -/
theorem c2_failure_threshold (succeeded failed : List String) :
    (check_failed_videos succeeded failed = .error .fatalThreshold ↔
      failed ≠ [] ∧ failed.length ≥ succeeded.length) ∧
    (check_failed_videos succeeded failed = .ok () ↔
      failed = [] ∨ failed.length < succeeded.length) := by
  unfold check_failed_videos
  split_ifs with h1 h2 <;> simp_all [List.isEmpty_iff]

theorem c2_failure_threshold_witness :
    check_failed_videos ["s1", "s2", "s3", "s4", "s5"]
        ["f1", "f2", "f3", "f4", "f5"] = .error .fatalThreshold ∧
    check_failed_videos ["s1", "s2", "s3", "s4", "s5", "s6"]
        ["f1", "f2", "f3", "f4"] = .ok () :=
  ⟨(c2_failure_threshold _ _).1.2 ⟨by decide, by decide⟩,
   (c2_failure_threshold _ _).2.2 (Or.inr (by decide))⟩

/-! ## `YoutubeDownload.extract_videos_info`: file-mode size parsing
(claim C4)

The source tests the last character (`s[-1:]`) against `"K"`, `"M"`,
`"G"` but strips the last TWO characters (`s[:-2]`) before `float(...)`.
`float` on the reachable inputs (digit strings) is modelled exactly;
`float("")` raises `ValueError`. -/

/-- Python `float(s)` for the strings reachable here (digit strings or
the empty string after suffix-stripping); non-numeric input, including
the empty string, raises `ValueError`. -/
def pyFloat (s : String) : Except PyErr Nat :=
  if !s.data.isEmpty && s.data.all Char.isDigit then
    .ok (s.data.foldl (fun n c => n * 10 + (c.toNat - 48)) 0)
  else .error .floatValueError

/-- The size conversion of `extract_videos_info`, per video-size cell:
`s[-1:] == "K"` → `float(s[:-2]) * 1024`, `"M"` → `* 1024 * 1024`,
`"G"` → `* 1024 * 1024 * 1024`, else the literal `"0"` → `0`, else log
and `sys.exit(1)`. -/
def parse_video_size (s : String) : Except PyErr Nat :=
  if s.takeRight 1 = "K" then (pyFloat (s.dropRight 2)).map (· * 1024)
  else if s.takeRight 1 = "M" then
    (pyFloat (s.dropRight 2)).map (· * 1024 * 1024)
  else if s.takeRight 1 = "G" then
    (pyFloat (s.dropRight 2)).map (· * 1024 * 1024 * 1024)
  else if s = "0" then .ok 0
  else .error .sysExit

/-- C4 (code bug): because the code drops TWO trailing characters while
testing only one suffix character, `"10K"` converts `float("1") * 1024 =
1024` (the claim says 10240), and `"2M"`/`"1G"` crash with `ValueError`
on `float("")` (the claim says 2097152 and 1073741824); `"0"` → 0 and an
unknown trailing letter halting the process are as claimed. -/
theorem c4_size_suffix_parsing :
    parse_video_size "10K" = .ok 1024 ∧ (1024 : Nat) ≠ 10240 ∧
    parse_video_size "2M" = .error .floatValueError ∧
    parse_video_size "1G" = .error .floatValueError ∧
    parse_video_size "0" = .ok 0 ∧
    parse_video_size "10X" = .error .sysExit := by
  refine ⟨?_, by decide, ?_, ?_, ?_, ?_⟩ <;> rfl

/-! ## `get_video_json`: view-per-year enrichment (claim C5)

The source computes `years = now.year - published_at.year` and
`view_per_year = int(views / years + 1)`, falling back to `0` on
`ZeroDivisionError`.  For a publish year not after the current year
(the domain the claim quantifies over: `years` zero or positive), with
exact arithmetic `int(views / years + 1) = views // years + 1` since
`views ≥ 0`.  The approximate-size probe through the retrieval engine is
an oracle returning `some size` on success, `none` when any exception is
caught (size recorded as 0). -/

/-- `view_per_year` as computed per video by `get_video_json`. -/
def view_per_year (views years : Nat) : Nat :=
  if years = 0 then 0 else views / years + 1

/-- One item of the `/videos` API response used by `get_video_json`:
`id`, `statistics.viewCount`, and the year of `snippet.publishedAt`. -/
structure ApiVideo where
  id : String
  viewCount : Nat
  publishedYear : Nat
  deriving DecidableEq, Repr

/-- The two statistics fields injected by `get_video_json`. -/
structure InjectedStats where
  viewPerYear : Nat
  videoSize : Nat
  deriving DecidableEq, Repr

/-- `get_video_json`, restricted to its observable enrichment: each
fetched video is paired with the injected `viewPerYear` and `videoSize`
statistics (`videoSize` is the probe result, or `0` when the probe
fails). -/
def get_video_json (nowYear : Nat) (sizeProbe : String → Option Nat)
    (videos : List ApiVideo) : List (ApiVideo × InjectedStats) :=
  videos.map fun v =>
    (v, ⟨view_per_year v.viewCount (nowYear - v.publishedYear),
         (sizeProbe v.id).getD 0⟩)

/-- C5 (counterexample): the claim says the injected `viewPerYear`
equals `floor(viewCount / yearsSincePublish)` for positive years.  A
video with 10 views published 2 years ago gets `viewPerYear = 6 =
int(10 / 2 + 1)`, not `floor(10 / 2) = 5`. -/
theorem c5_view_per_year_counterexample :
    (get_video_json 2022 (fun _ => none) [⟨"vidX", 10, 2020⟩]).map
        (fun p => p.2.viewPerYear) = [6] ∧
    (10 : Nat) / 2 = 5 ∧ (6 : Nat) ≠ 5 := by
  refine ⟨rfl, rfl, by decide⟩

/-- C5 (amended): for every enriched video, the injected `viewPerYear`
equals `floor(viewCount / yearsSincePublish) + 1` when
`yearsSincePublish` is strictly positive, and `0` when it is zero. -/
theorem c5_view_per_year_amended (nowYear : Nat)
    (sizeProbe : String → Option Nat) (videos : List ApiVideo)
    (p : ApiVideo × InjectedStats)
    (hp : p ∈ get_video_json nowYear sizeProbe videos) :
    (0 < nowYear - p.1.publishedYear →
      p.2.viewPerYear = p.1.viewCount / (nowYear - p.1.publishedYear) + 1) ∧
    (nowYear - p.1.publishedYear = 0 → p.2.viewPerYear = 0) := by
  unfold get_video_json at hp
  obtain ⟨v, _, rfl⟩ := List.mem_map.1 hp
  dsimp only
  constructor
  · intro hy
    simp only [view_per_year]
    rw [if_neg (by omega)]
  · intro hy
    simp [view_per_year, hy]

theorem c5_view_per_year_amended_witness :
    (0 < 2022 - 2020 →
      (6 : Nat) = 10 / (2022 - 2020) + 1) ∧
    (2022 - 2020 = 0 → (6 : Nat) = 0) :=
  c5_view_per_year_amended 2022 (fun _ => none) [⟨"vidX", 10, 2020⟩]
    (⟨"vidX", 10, 2020⟩, ⟨6, 0⟩) (by decide)

/-! ## `YoutubeDownload.download_video_files`: round-robin batching
(claim C7)

`concurrency = nb_videos if nb_videos < max_concurrency else
max_concurrency`; if `concurrency <= 1` the whole id list is processed
as a single batch; otherwise `concurrency` empty batches are filled by
`batches[next(slot)].append(video_id)` with the slot generator cycling
`0, 1, ..., concurrency-1, 0, ...`. -/

/-- One iteration of the batch-filling loop: append `video_id` to the
batch at the current slot, then advance the slot generator
(`n += 1; if n >= concurrency: n = 0`). -/
def rrStep (c : Nat) (st : List (List String) × Nat) (video_id : String) :
    List (List String) × Nat :=
  (st.1.set st.2 (st.1.getD st.2 [] ++ [video_id]),
   if c ≤ st.2 + 1 then 0 else st.2 + 1)

/-- The batch list built by `download_video_files` for a given
concurrency `c ≥ 2`: `c` empty batches filled round-robin. -/
def makeBatches (c : Nat) (videos_ids : List String) :
    List (List String) :=
  (videos_ids.foldl (rrStep c) (List.replicate c [], 0)).1

/-- The batch partition computed by `download_video_files` (the part of
the function that decides which ids each worker processes): with
effective concurrency at most 1 the whole list is one batch, otherwise
the round-robin partition into `concurrency` batches. -/
def download_video_files_partition (max_concurrency : Nat)
    (videos_ids : List String) : List (List String) :=
  let concurrency :=
    if videos_ids.length < max_concurrency then videos_ids.length
    else max_concurrency
  if concurrency ≤ 1 then [videos_ids]
  else makeBatches concurrency videos_ids

/-- Reference characterisation of one round-robin slot: the elements
assigned to slot `i` when the generator currently reads `n`. -/
def slotFilter (c i : Nat) : Nat → List String → List String
  | _, [] => []
  | n, x :: xs =>
      if n = i then x :: slotFilter c i (if c ≤ n + 1 then 0 else n + 1) xs
      else slotFilter c i (if c ≤ n + 1 then 0 else n + 1) xs

theorem foldl_rrStep_length (c : Nat) :
    ∀ (ids : List String) (st : List (List String) × Nat),
      ((ids.foldl (rrStep c) st).1).length = st.1.length := by
  intro ids
  induction ids with
  | nil => intro st; rfl
  | cons x xs ih =>
      intro st
      rw [List.foldl_cons, ih]
      simp [rrStep]

theorem foldl_rrStep_getElem (c : Nat) :
    ∀ (ids : List String) (bs : List (List String)) (n : Nat),
      bs.length = c → n < c →
      ∀ i, ((ids.foldl (rrStep c) (bs, n)).1)[i]? =
        (bs[i]?).map (· ++ slotFilter c i n ids) := by
  intro ids
  induction ids with
  | nil =>
      intro bs n _ _ i
      simp [slotFilter]
  | cons x xs ih =>
      intro bs n hlen hn i
      rw [List.foldl_cons]
      have hstep : rrStep c (bs, n) x =
          (bs.set n (bs.getD n [] ++ [x]), if c ≤ n + 1 then 0 else n + 1) :=
        rfl
      rw [hstep]
      have hlen' : (bs.set n (bs.getD n [] ++ [x])).length = c := by
        simp [hlen]
      have hn' : (if c ≤ n + 1 then 0 else n + 1) < c := by
        split <;> omega
      rw [ih _ _ hlen' hn' i]
      have hnlt : n < bs.length := by omega
      by_cases hni : n = i
      · subst hni
        have h1 : (bs.set n (bs.getD n [] ++ [x]))[n]? =
            some (bs.getD n [] ++ [x]) :=
          List.getElem?_set_eq_of_lt _ hnlt
        have h2 : bs[n]? = some bs[n] := List.getElem?_eq_getElem hnlt
        rw [h1, h2]
        simp only [Option.map_some']
        have hd : bs.getD n [] = bs[n] := List.getD_eq_getElem bs [] hnlt
        rw [hd]
        simp [slotFilter, List.append_assoc]
      · have h1 : (bs.set n (bs.getD n [] ++ [x]))[i]? = bs[i]? := by
          rw [List.getElem?_set]
          simp [hni]
        rw [h1]
        have : slotFilter c i n (x :: xs) =
            slotFilter c i (if c ≤ n + 1 then 0 else n + 1) xs := by
          simp [slotFilter, hni]
        rw [this]

theorem makeBatches_length (c : Nat) (ids : List String) :
    (makeBatches c ids).length = c := by
  unfold makeBatches
  rw [foldl_rrStep_length]
  simp

theorem makeBatches_getElem (c : Nat) (hc : 0 < c) (ids : List String)
    (i : Nat) (hi : i < c) :
    (makeBatches c ids)[i]? = some (slotFilter c i 0 ids) := by
  unfold makeBatches
  rw [foldl_rrStep_getElem c ids (List.replicate c []) 0 (by simp) hc i]
  rw [List.getElem?_replicate]
  simp [hi]

theorem sum_map_add_nat {α : Type} (l : List α) (f g : α → Nat) :
    (l.map (fun x => f x + g x)).sum = (l.map f).sum + (l.map g).sum := by
  induction l with
  | nil => rfl
  | cons x xs ih => simp [ih]; omega

theorem sum_map_ite_range (c n k : Nat) (hn : n < c) :
    ((List.range c).map (fun i => if n = i then k else 0)).sum = k := by
  induction c with
  | zero => omega
  | succ c ih =>
      rw [List.range_succ, List.map_append, List.sum_append]
      by_cases h : n = c
      · subst h
        have : ((List.range n).map (fun i => if n = i then k else 0)).sum
            = ((List.range n).map (fun _ => 0)).sum := by
          apply congrArg
          apply List.map_congr_left
          intro i hi
          rw [if_neg]
          have := List.mem_range.1 hi
          omega
        rw [this]
        simp
      · have hn' : n < c := by omega
        rw [ih hn']
        simp [h]

theorem slotFilter_count_sum (c : Nat) (a : String) :
    ∀ (ids : List String) (n : Nat), n < c →
      ((List.range c).map (fun i => (slotFilter c i n ids).count a)).sum
        = ids.count a := by
  intro ids
  induction ids with
  | nil =>
      intro n _
      simp [slotFilter]
  | cons x xs ih =>
      intro n hn
      have hn' : (if c ≤ n + 1 then 0 else n + 1) < c := by split <;> omega
      have hcount : ∀ i, (slotFilter c i n (x :: xs)).count a =
          (slotFilter c i (if c ≤ n + 1 then 0 else n + 1) xs).count a
            + (if n = i then (if x == a then 1 else 0) else 0) := by
        intro i
        by_cases hni : n = i
        · simp only [slotFilter, if_pos hni, List.count_cons]
        · simp only [slotFilter, if_neg hni]
          omega
      calc ((List.range c).map
            (fun i => (slotFilter c i n (x :: xs)).count a)).sum
          = ((List.range c).map (fun i =>
              (slotFilter c i (if c ≤ n + 1 then 0 else n + 1) xs).count a
                + (if n = i then (if x == a then 1 else 0) else 0))).sum := by
            apply congrArg
            exact List.map_congr_left fun i _ => hcount i
        _ = xs.count a + (if x == a then 1 else 0) := by
            rw [sum_map_add_nat, ih _ hn', sum_map_ite_range c n _ hn]
        _ = (x :: xs).count a := (List.count_cons a x xs).symm

theorem map_count_sum_of_getElem (c : Nat) (a : String)
    (L : List (List String)) (F : Nat → List String)
    (hlen : L.length = c) (hget : ∀ i, i < c → L[i]? = some (F i)) :
    (L.map (List.count a)).sum
      = ((List.range c).map (fun i => (F i).count a)).sum := by
  induction c generalizing L F with
  | zero =>
      have : L = [] := List.eq_nil_of_length_eq_zero hlen
      subst this
      rfl
  | succ c ih =>
      rcases L with _ | ⟨b, L'⟩
      · simp at hlen
      · have hb : b = F 0 := by
          have := hget 0 (by omega)
          simpa using this
        have hL' : L'.length = c := by simpa using hlen
        have hget' : ∀ i, i < c → L'[i]? = some (F (i + 1)) := by
          intro i hi
          have := hget (i + 1) (by omega)
          simpa using this
        have hrec := ih L' (fun i => F (i + 1)) hL' hget'
        simp only at hrec
        rw [List.map_cons, List.sum_cons, hrec, hb,
          List.range_succ_eq_map, List.map_cons, List.map_map,
          List.sum_cons]
        rfl

theorem contains_false_of_count_zero {a : String} {b : List String}
    (hb : b.count a = 0) : b.contains a = false := by
  rcases hc : b.contains a with _ | _
  · rfl
  · have := List.count_pos_iff.2 (List.elem_iff.1 hc)
    omega

theorem count_eq_zero_sum {L : List (List String)} {a : String}
    (h : (L.map (List.count a)).sum = 0) :
    L.countP (fun b => b.contains a) = 0 := by
  induction L with
  | nil => rfl
  | cons b L' ih =>
      rw [List.map_cons, List.sum_cons] at h
      have hb : b.count a = 0 := by omega
      have hL : (L'.map (List.count a)).sum = 0 := by omega
      rw [List.countP_cons, ih hL, contains_false_of_count_zero hb]
      simp

theorem count_eq_one_sum {L : List (List String)} {a : String}
    (h : (L.map (List.count a)).sum = 1) :
    L.countP (fun b => b.contains a) = 1 := by
  induction L with
  | nil => simp at h
  | cons b L' ih =>
      rw [List.map_cons, List.sum_cons] at h
      rw [List.countP_cons]
      by_cases hb : b.count a = 0
      · have hL : (L'.map (List.count a)).sum = 1 := by omega
        rw [ih hL, contains_false_of_count_zero hb]
        simp
      · have hL : (L'.map (List.count a)).sum = 0 := by omega
        have hcont : b.contains a = true := by
          apply List.elem_iff.2
          apply List.count_pos_iff.1
          omega
        rw [count_eq_zero_sum hL, hcont]
        simp

/-- C7: for a non-empty id list and `maxConcurrency ≥ 2`, the download
phase produces exactly `min(count, maxConcurrency)` batches; counting
multiplicities, every id of the input occurs exactly as often across all
batches as in the input (so, for the duplicate-free resolved id list,
each id appears in exactly one batch); and 7 ids with
`maxConcurrency = 3` are split round-robin into batches of sizes
3, 2, 2. -/
theorem c7_round_robin_batching (max_concurrency : Nat)
    (videos_ids : List String) (hmc : 2 ≤ max_concurrency)
    (hne : videos_ids ≠ []) :
    ((download_video_files_partition max_concurrency videos_ids).length
        = min videos_ids.length max_concurrency) ∧
    (∀ a, ((download_video_files_partition max_concurrency videos_ids).map
        (List.count a)).sum = videos_ids.count a) ∧
    (∀ a, videos_ids.Nodup →
      (download_video_files_partition max_concurrency videos_ids).countP
          (fun b => b.contains a)
        = if a ∈ videos_ids then 1 else 0) ∧
    download_video_files_partition 3
        ["v1", "v2", "v3", "v4", "v5", "v6", "v7"]
      = [["v1", "v4", "v7"], ["v2", "v5"], ["v3", "v6"]] := by
  have hlen1 : 1 ≤ videos_ids.length := by
    rcases videos_ids with _ | _
    · exact absurd rfl hne
    · simp
  have hcount : ∀ a,
      ((download_video_files_partition max_concurrency videos_ids).map
        (List.count a)).sum = videos_ids.count a := by
    intro a
    unfold download_video_files_partition
    by_cases h1 : (if videos_ids.length < max_concurrency
        then videos_ids.length else max_concurrency) ≤ 1
    · rw [if_pos h1]
      simp
    · rw [if_neg h1]
      set c := if videos_ids.length < max_concurrency
        then videos_ids.length else max_concurrency with hc
      have hcpos : 0 < c := by omega
      rw [map_count_sum_of_getElem c a (makeBatches c videos_ids)
        (fun i => slotFilter c i 0 videos_ids) (makeBatches_length c _)
        (fun i hi => makeBatches_getElem c hcpos videos_ids i hi)]
      exact slotFilter_count_sum c a videos_ids 0 hcpos
  refine ⟨?_, hcount, ?_, ?_⟩
  · unfold download_video_files_partition
    by_cases h1 : (if videos_ids.length < max_concurrency
        then videos_ids.length else max_concurrency) ≤ 1
    · rw [if_pos h1]
      simp only [List.length_singleton]
      split at h1 <;> omega
    · rw [if_neg h1]
      rw [makeBatches_length]
      split <;> omega
  · intro a hnd
    by_cases hmem : a ∈ videos_ids
    · rw [if_pos hmem]
      apply count_eq_one_sum
      rw [hcount a]
      exact List.count_eq_one_of_mem hnd hmem
    · rw [if_neg hmem]
      apply count_eq_zero_sum
      rw [hcount a]
      exact List.count_eq_zero_of_not_mem hmem
  · rfl

theorem c7_round_robin_batching_witness :
    (download_video_files_partition 3
        ["v1", "v2", "v3", "v4", "v5", "v6", "v7"]).length = min 7 3 ∧
    ((download_video_files_partition 3
        ["v1", "v2", "v3", "v4", "v5", "v6", "v7"]).map
          (List.count "v4")).sum
      = ["v1", "v2", "v3", "v4", "v5", "v6", "v7"].count "v4" ∧
    download_video_files_partition 3
        ["v1", "v2", "v3", "v4", "v5", "v6", "v7"]
      = [["v1", "v4", "v7"], ["v2", "v5"], ["v3", "v6"]] := by
  have h := c7_round_robin_batching 3
    ["v1", "v2", "v3", "v4", "v5", "v6", "v7"] (by decide) (by decide)
  exact ⟨h.1, h.2.1 "v4", h.2.2.2⟩

/-! ## `subset_videos_json` (claim C10)

Python `sorted(..., key=k, reverse=True)` is a stable descending sort;
any stable descending insertion produces the identical list, which
`pySortedByDesc` implements (ties keep the original relative order
because an element is inserted before the first element whose key is
not greater).  The local variable `videos_ids` is assigned only inside
the `subset_videos != 0` branch; the `subset_gb != 0` branch reads
`videos_ids[-1]`, so the binding is threaded as an `Option` and a read
of `none` is the `UnboundLocalError` Python raises. -/

/-- A video record as consumed by `subset_videos_json`: `id`,
`statistics.viewCount`, `snippet.publishedAt`, and the two injected
statistics `viewPerYear` and `videoSize`. -/
structure Video where
  id : String
  viewCount : Nat
  publishedAt : String
  viewPerYear : Nat
  videoSize : Nat
  deriving DecidableEq, Repr

/-- Insert into a descending-sorted list, before the first element whose
key is not larger (stable). -/
def insertByDesc {κ : Type} [LinearOrder κ] (key : Video → κ) (x : Video) :
    List Video → List Video
  | [] => [x]
  | y :: ys =>
      if key y ≤ key x then x :: y :: ys else y :: insertByDesc key x ys

/-- `sorted(videos, key=key, reverse=True)` (stable descending). -/
def pySortedByDesc {κ : Type} [LinearOrder κ] (key : Video → κ)
    (videos : List Video) : List Video :=
  videos.foldr (insertByDesc key) []

/-- The initial `subset_by` sort of `subset_videos_json` (`"views"`,
`"recent"`, `"views-per-year"`, or no sort for any other value). -/
def sortVideos (subset_by : String) (videos : List Video) : List Video :=
  if subset_by = "views" then pySortedByDesc (fun v => v.viewCount) videos
  else if subset_by = "recent" then
    pySortedByDesc (fun v => v.publishedAt) videos
  else if subset_by = "views-per-year" then
    pySortedByDesc (fun v => v.viewPerYear) videos
  else videos

/-- The greedy size-budget loop of the `subset_gb != 0` branch.  `all`
is the list the trailing comprehensions filter (the views-per-year
re-sorted list); `vidsBound` is the `videos_ids` binding from the
truncation branch, if any. -/
def gbLoop (budget : Nat) (vidsBound : Option (List String))
    (all : List Video) :
    Nat → List String → List Video → Except PyErr (List Video)
  | _, _, [] => .ok all
  | total, subsetIds, v :: rest =>
      if total + v.videoSize ≤ budget then
        match vidsBound with
        | none => .error .unboundLocalError
        | some l =>
            match l.getLast? with
            | none => .error .indexError
            | some lastId =>
                if v.id = lastId then
                  .ok (all.filter
                    (fun w => decide (w.id ∈ subsetIds ++ [v.id])))
                else
                  gbLoop budget vidsBound all (total + v.videoSize)
                    (subsetIds ++ [v.id]) rest
      else .ok (all.filter (fun w => decide (w.id ∈ subsetIds)))

/-- `subset_videos_json(videos, subset_by, subset_videos, subset_gb)`. -/
def subset_videos_json (videos : List Video) (subset_by : String)
    (subset_videos : Nat) (subset_gb : Nat) : Except PyErr (List Video) :=
  let sorted1 := sortVideos subset_by videos
  let st :=
    if subset_videos ≠ 0 then
      let videos_ids := sorted1.map (fun v => v.id)
      let videos_ids_subset := videos_ids.take subset_videos
      (sorted1.filter (fun v => decide (v.id ∈ videos_ids_subset)),
        some videos_ids)
    else (sorted1, (none : Option (List String)))
  if subset_gb ≠ 0 then
    let budget := subset_gb * 1024 * 1024 * 1024
    let sorted2 := pySortedByDesc (fun v => v.viewPerYear) st.1
    gbLoop budget st.2 sorted2 0 [] sorted2
  else .ok st.1

/-- C10 (counterexample): the claim says that with `subsetGb` non-zero
and `subsetVideos` zero the operation crashes for EVERY video list.  It
does not: with an empty list the loop never runs, and with a first video
exceeding the budget the else-branch assigns `videos_ids` before reading
it; both calls return normally. -/
theorem c10_subset_videos_counterexample :
    subset_videos_json [] "views-per-year" 0 1 = .ok [] ∧
    subset_videos_json [⟨"big", 7, "2020-01-01T00:00:00Z", 5, 2000000000⟩]
        "views-per-year" 0 1 = .ok [] := ⟨rfl, rfl⟩

/-- C10 (amended): with `subsetGb` non-zero and `subsetVideos` zero, the
greedy branch reads the never-assigned `videos_ids` and crashes with
`UnboundLocalError` exactly when the first video in views-per-year
descending order fits the byte budget (`subsetGb * 1024^3`); when the
list is empty it returns the empty list, and when the first video
exceeds the budget it returns the (empty) filtered subset without
touching the unassigned variable. -/
theorem c10_subset_videos_amended (videos : List Video)
    (subset_by : String) (subset_gb : Nat) (hgb : subset_gb ≠ 0) :
    subset_videos_json videos subset_by 0 subset_gb =
      match pySortedByDesc (fun v => v.viewPerYear)
          (sortVideos subset_by videos) with
      | [] => .ok []
      | v :: _ =>
          if v.videoSize ≤ subset_gb * 1024 * 1024 * 1024 then
            .error .unboundLocalError
          else .ok [] := by
  unfold subset_videos_json
  simp only [ne_eq, not_true_eq_false, if_neg, reduceIte, if_pos hgb]
  rcases hs : pySortedByDesc (fun v => v.viewPerYear)
      (sortVideos subset_by videos) with _ | ⟨v, rest⟩
  · simp [gbLoop]
  · by_cases hfit : v.videoSize ≤ subset_gb * 1024 * 1024 * 1024
    · simp only [gbLoop, Nat.zero_add, if_pos hfit]
    · simp only [gbLoop, Nat.zero_add, if_neg hfit]
      simp

theorem c10_subset_videos_amended_witness :
    subset_videos_json [⟨"small", 7, "2020-01-01T00:00:00Z", 5, 100⟩]
        "views" 0 1 = .error .unboundLocalError := by
  rw [c10_subset_videos_amended _ _ _ (by decide)]
  rfl

/-! ## `get_channel_playlists_json` / `merge_playlists` (claims C3, C6)

The cache slice for the one channel involved in a call is made explicit
state.  `merge_playlists` iterates over the cached playlist entries
(fetched with `part=id`, i.e. `{kind, etag, id}` objects, so the
equality-based `list.remove(item)` is removal of the entry with that
id), merges every playlist whose cached video list is shorter than the
threshold into an accumulator, deletes the merged playlists' cache
files and entries, handles the uploads playlist, replaces the cached
channel playlist list with the synthetic custom document, de-duplicates
the accumulator by video id and renumbers positions. -/

/-- One `playlistItems` element as used by `merge_playlists`:
`contentDetails.videoId` and `snippet.position` (the only fields read or
written). -/
structure VItem where
  videoId : String
  position : Nat
  deriving DecidableEq, Repr

/-- The `channel_<id>` document fields read by `merge_playlists`:
`contentDetails.relatedPlaylists.uploads` and `snippet.title`. -/
structure ChannelJson where
  uploads : String
  title : String
  deriving DecidableEq, Repr

/-- The value cached under `channel_<id>_playlists`: the fetched list of
playlist entries (by id), or the synthetic custom document
`{kind, etag, id: "custom"}` that `merge_playlists` writes over it. -/
inductive ChPlaylists where
  | list (ids : List String)
  | customDoc
  deriving DecidableEq, Repr

/-- The synthetic `playlist_custom` detail document (the title is the
only non-constant field relevant to the claims). -/
structure CustomDetail where
  title : String
  deriving DecidableEq, Repr

/-- The on-disk JSON cache slice touched by playlist retrieval and
merging, for the single channel involved in one call. -/
structure Cache where
  /-- `playlist_<id>_videos.json` per playlist id. -/
  plVideos : String → Option (List VItem)
  /-- whether `playlist_<id>.json` exists (target of `os.remove`). -/
  plDetailPresent : String → Bool
  /-- `channel_<id>_playlists.json`. -/
  chPlaylists : Option ChPlaylists
  /-- `channel_<id>.json`. -/
  chJson : Option ChannelJson
  /-- `playlist_custom.json`. -/
  customDetail : Option CustomDetail
  /-- `playlist_custom_videos.json`. -/
  customVideos : Option (List VItem)

/-- The per-merged-playlist cleanup: `os.remove` of
`playlist_<pid>_videos.json` (it exists, having just been loaded) and of
`playlist_<pid>.json` (missing file → `FileNotFoundError`), then reload
the channel playlist list, `list.remove` the entry (`None` →
`AttributeError`; the custom dict has no `remove` → `AttributeError`;
absent entry → `ValueError`) and save it back. -/
def removeMergedPlaylist (cache : Cache) (pid : String) :
    Except PyErr Cache :=
  let cache1 := { cache with
    plVideos := fun x => if x = pid then none else cache.plVideos x }
  if cache1.plDetailPresent pid then
    let cache2 := { cache1 with
      plDetailPresent := fun x =>
        if x = pid then false else cache1.plDetailPresent x }
    match cache2.chPlaylists with
    | none => .error .attributeError
    | some .customDoc => .error .attributeError
    | some (.list l) =>
        if pid ∈ l then
          .ok { cache2 with chPlaylists := some (.list (l.erase pid)) }
        else .error .valueError
  else .error .fileNotFoundError

/-- One iteration of the `for item in items` loop of `merge_playlists`.
For `optimize_number >= 3`: `len(None)` is a `TypeError`; a playlist
strictly below the threshold is accumulated and cleaned up.  For
`optimize_number == 0`: `items_merged += None` is a `TypeError`; every
playlist is accumulated and cleaned up.  Other values do nothing in the
loop. -/
def merge_step (n : Int) (st : Cache × List VItem) (pid : String) :
    Except PyErr (Cache × List VItem) :=
  let cache := st.1
  let acc := st.2
  let plv := cache.plVideos pid
  if 3 ≤ n then
    match plv with
    | none => .error .typeError
    | some vids =>
        if (vids.length : Int) < n then
          (removeMergedPlaylist cache pid).map (fun c => (c, acc ++ vids))
        else .ok (cache, acc)
  else if n = 0 then
    match plv with
    | none => .error .typeError
    | some vids =>
        (removeMergedPlaylist cache pid).map (fun c => (c, acc ++ vids))
  else .ok (cache, acc)

/-- The uploads-playlist cleanup: like `removeMergedPlaylist`, except
the channel-list removal is a `for`/`break` scan that silently does
nothing when no entry matches, and iterating a non-list cached value is
a `TypeError`. -/
def removeUploadsPlaylist (cache : Cache) (up : String) :
    Except PyErr Cache :=
  let cache1 := { cache with
    plVideos := fun x => if x = up then none else cache.plVideos x }
  if cache1.plDetailPresent up then
    let cache2 := { cache1 with
      plDetailPresent := fun x =>
        if x = up then false else cache1.plDetailPresent x }
    match cache2.chPlaylists with
    | none => .error .typeError
    | some .customDoc => .error .typeError
    | some (.list l) =>
        .ok { cache2 with chPlaylists := some (.list (l.erase up)) }
  else .error .fileNotFoundError

/-- The whole-duplicate removal of `merge_playlists`: walk the merged
items keeping the first occurrence of each `contentDetails.videoId`
(`seen` is the accumulated `videos_ids` list; only membership is
tested, so its order is irrelevant). -/
def dedupGo (seen : List String) : List VItem → List VItem
  | [] => []
  | x :: xs =>
      if x.videoId ∈ seen then dedupGo seen xs
      else x :: dedupGo (x.videoId :: seen) xs

def dedupByVideoId (l : List VItem) : List VItem := dedupGo [] l

/-- The position renumbering
(`item["snippet"]["position"] = i` for `i, item in enumerate(...)`). -/
def renumberFrom (i : Nat) : List VItem → List VItem
  | [] => []
  | x :: xs => { x with position := i } :: renumberFrom (i + 1) xs

def renumber (l : List VItem) : List VItem := renumberFrom 0 l

/-- The tail of `merge_playlists` after the per-playlist loop: the
uploads-playlist handling, the synthetic-document writes, and the
dedup/renumber/save of the accumulated items. -/
def merge_finish (n : Int) (st1 : Cache × List VItem) :
    Except PyErr (Cache × ChPlaylists) := do
  let cache1 := st1.1
  let acc1 := st1.2
  match cache1.chJson with
  | none => .error .typeError
  | some chj =>
      let up := chj.uploads
      let upv := cache1.plVideos up
      let doUp : Except PyErr Bool :=
        if n = 0 then .ok true
        else if 3 ≤ n then
          match upv with
          | none => .error .typeError
          | some l => .ok (decide ((l.length : Int) < n))
        else .ok false
      let b ← doUp
      let st2 ←
        if b then
          match upv with
          | none => (.error .typeError : Except PyErr (Cache × List VItem))
          | some l =>
              (removeUploadsPlaylist cache1 up).map (fun c => (c, acc1 ++ l))
        else .ok (cache1, acc1)
      let cache3 := { st2.1 with chPlaylists := some .customDoc }
      let titleDoc : CustomDetail :=
        ⟨if 3 ≤ n then "Other Videos" else "All Videos"⟩
      let cache4 := { cache3 with customDetail := some titleDoc }
      let finalItems := renumber (dedupByVideoId st2.2)
      let cache5 := { cache4 with customVideos := some finalItems }
      .ok (cache5, .customDoc)

/-- `merge_playlists(channel_id, items, optimize_number)` over the
cache slice of that channel: the per-playlist merge loop followed by
the finishing phase; returns the new cache and the returned
`new_channel_playlists_json` value. -/
def merge_playlists (items : List String) (n : Int) (cache : Cache) :
    Except PyErr (Cache × ChPlaylists) :=
  items.foldlM (merge_step n) (cache, []) >>= merge_finish n

/-- `get_channel_playlists_json(channel_id, optimize_number)`: with a
cached playlist list, `None` returns it as-is, `>= 3` and `== 0` merge,
`1`/`2` raise `ValueError`, anything else returns the cached value;
with no cached list, the paginated fetch (`pages` being the successive
`items` arrays of the responses) accumulates and saves the growing list
and returns it, without ever validating `optimize_number`. -/
def get_channel_playlists_json (cache : Cache)
    (pages : List (List String)) (optimize : Option Int) :
    Except PyErr (Cache × ChPlaylists) :=
  match cache.chPlaylists with
  | some items =>
      match optimize with
      | none => .ok (cache, items)
      | some n =>
          if 3 ≤ n then
            match items with
            | .list l => merge_playlists l n cache
            | .customDoc => .error .typeError
          else if n = 0 then
            match items with
            | .list l => merge_playlists l 0 cache
            | .customDoc => .error .typeError
          else if n = 1 ∨ n = 2 then .error .invalidInput
          else .ok (cache, items)
  | none =>
      let r := pages.foldl
        (fun (st : Cache × List String) page =>
          let acc := st.2 ++ page
          ({ st.1 with chPlaylists := some (.list acc) }, acc))
        (cache, [])
      .ok (r.1, .list r.2)

/-- The cache state with nothing cached yet. -/
def emptyCache : Cache :=
  ⟨fun _ => none, fun _ => false, none, none, none, none⟩

/-- The merged-items list the claim describes: the concatenated video
lists of exactly the playlists strictly below the threshold, in order,
followed by the uploads list iff it individually qualifies. -/
def mergedSpec (vl : String → List VItem) (items : List String)
    (up : String) (n : Int) : List VItem :=
  (items.filter (fun pid => decide (((vl pid).length : Int) < n))).flatMap vl
    ++ (if ((vl up).length : Int) < n then vl up else [])

/-- C3 (counterexample): with an EMPTY cache (the playlist list not yet
cached), `optimize_number` of 1 or 2 does NOT fail: the function goes
straight to the paginated fetch, saves and returns the fetched list,
never validating `optimize_number`.  The validation branch is reachable
only when the playlist list is already cached. -/
theorem c3_optimize_validation_counterexample :
    get_channel_playlists_json emptyCache [["PLfetched"]] (some 1)
      = .ok ({ emptyCache with chPlaylists := some (.list ["PLfetched"]) },
          .list ["PLfetched"]) ∧
    get_channel_playlists_json emptyCache [["PLfetched"]] (some 2)
      = .ok ({ emptyCache with chPlaylists := some (.list ["PLfetched"]) },
          .list ["PLfetched"]) := ⟨rfl, rfl⟩

/-- C3 (amended): when the channel's playlist list IS already cached
(whatever was cached, and whatever the channel's content), calling with
`optimize_number` 1 or 2 fails with the InvalidInput `ValueError`; with
no cached list the call fetches and returns without validating. -/
theorem c3_optimize_validation_amended (cache : Cache)
    (items : ChPlaylists) (pages : List (List String)) (n : Int)
    (hcached : cache.chPlaylists = some items) (hn : n = 1 ∨ n = 2) :
    get_channel_playlists_json cache pages (some n)
      = .error .invalidInput := by
  unfold get_channel_playlists_json
  rw [hcached]
  rcases hn with rfl | rfl <;> simp

/-- A concrete cache state whose channel-playlist list is cached. -/
def cachedListCache : Cache :=
  { emptyCache with chPlaylists := some (.list ["PLx"]) }

theorem c3_optimize_validation_amended_witness :
    get_channel_playlists_json cachedListCache [] (some 1)
      = .error .invalidInput :=
  c3_optimize_validation_amended cachedListCache (.list ["PLx"]) [] 1 rfl
    (Or.inl rfl)

theorem dedupGo_map_nodup :
    ∀ (l : List VItem) (seen : List String),
      ((dedupGo seen l).map (fun x => x.videoId)).Nodup ∧
      (∀ s ∈ (dedupGo seen l).map (fun x => x.videoId), s ∉ seen) := by
  intro l
  induction l with
  | nil => intro seen; exact ⟨List.nodup_nil, by simp [dedupGo]⟩
  | cons x xs ih =>
      intro seen
      by_cases hx : x.videoId ∈ seen
      · simp only [dedupGo, if_pos hx]
        exact ih seen
      · simp only [dedupGo, if_neg hx, List.map_cons]
        obtain ⟨hnd, hs⟩ := ih (x.videoId :: seen)
        constructor
        · rw [List.nodup_cons]
          exact ⟨fun hmem => (hs _ hmem) (by simp), hnd⟩
        · intro s hsmem hsin
          rcases List.mem_cons.1 hsmem with rfl | hsm
          · exact hx hsin
          · exact hs s hsm (by simp [hsin])

theorem dedupGo_sublist :
    ∀ (l : List VItem) (seen : List String), (dedupGo seen l).Sublist l := by
  intro l
  induction l with
  | nil => intro seen; simp [dedupGo]
  | cons x xs ih =>
      intro seen
      by_cases hx : x.videoId ∈ seen
      · simp only [dedupGo, if_pos hx]
        exact (ih seen).cons x
      · simp only [dedupGo, if_neg hx]
        exact (ih _).cons₂ x

theorem find?_cons_ite (p : VItem → Bool) (x : VItem) (xs : List VItem) :
    List.find? p (x :: xs) = if p x then some x else List.find? p xs := by
  rcases h : p x with _ | _ <;> simp [List.find?_cons, h]

theorem dedupGo_find? :
    ∀ (l : List VItem) (seen : List String) (v : String), v ∉ seen →
      (dedupGo seen l).find? (fun x => x.videoId == v)
        = l.find? (fun x => x.videoId == v) := by
  intro l
  induction l with
  | nil => intro seen v _; rfl
  | cons x xs ih =>
      intro seen v hv
      by_cases hx : x.videoId ∈ seen
      · have hne : (x.videoId == v) = false := by
          rcases hb : x.videoId == v with _ | _
          · rfl
          · exact absurd ((beq_iff_eq.1 hb) ▸ hx) hv
        simp only [dedupGo, if_pos hx]
        rw [ih seen v hv, find?_cons_ite]
        simp [hne]
      · simp only [dedupGo, if_neg hx]
        rw [find?_cons_ite, find?_cons_ite]
        by_cases hb : (x.videoId == v) = true
        · simp only [hb, if_pos]
        · have hne : (x.videoId == v) = false := by
            rcases hb2 : x.videoId == v with _ | _
            · rfl
            · exact absurd hb2 hb
          simp only [hne, Bool.false_eq_true, if_neg, not_false_iff]
          apply ih
          intro hvmem
          rcases List.mem_cons.1 hvmem with heq | hm
          · exact hb (beq_iff_eq.2 heq.symm)
          · exact hv hm

theorem renumberFrom_map_position :
    ∀ (l : List VItem) (i : Nat),
      (renumberFrom i l).map (fun x => x.position)
        = List.range' i l.length := by
  intro l
  induction l with
  | nil => intro i; rfl
  | cons x xs ih =>
      intro i
      simp only [renumberFrom, List.map_cons, ih, List.length_cons]
      rw [List.range'_succ]

theorem renumberFrom_map_videoId :
    ∀ (l : List VItem) (i : Nat),
      (renumberFrom i l).map (fun x => x.videoId)
        = l.map (fun x => x.videoId) := by
  intro l
  induction l with
  | nil => intro i; rfl
  | cons x xs ih =>
      intro i
      simp only [renumberFrom, List.map_cons, ih]

theorem renumber_map_position (l : List VItem) :
    (renumber l).map (fun x => x.position) = List.range l.length := by
  rw [renumber, renumberFrom_map_position, List.range_eq_range']

theorem removeMergedPlaylist_ok (cache : Cache) (pid : String)
    (cur : List String) (hdet : cache.plDetailPresent pid = true)
    (hcp : cache.chPlaylists = some (.list cur)) (hmem : pid ∈ cur) :
    removeMergedPlaylist cache pid = .ok
      { plVideos := fun x => if x = pid then none else cache.plVideos x,
        plDetailPresent := fun x =>
          if x = pid then false else cache.plDetailPresent x,
        chPlaylists := some (.list (cur.erase pid)),
        chJson := cache.chJson,
        customDetail := cache.customDetail,
        customVideos := cache.customVideos } := by
  unfold removeMergedPlaylist
  dsimp only
  rw [hdet, hcp]
  simp only [if_true, hmem, if_pos]

theorem removeUploadsPlaylist_ok (cache : Cache) (up : String)
    (cur : List String) (hdet : cache.plDetailPresent up = true)
    (hcp : cache.chPlaylists = some (.list cur)) :
    removeUploadsPlaylist cache up = .ok
      { plVideos := fun x => if x = up then none else cache.plVideos x,
        plDetailPresent := fun x =>
          if x = up then false else cache.plDetailPresent x,
        chPlaylists := some (.list (cur.erase up)),
        chJson := cache.chJson,
        customDetail := cache.customDetail,
        customVideos := cache.customVideos } := by
  unfold removeUploadsPlaylist
  dsimp only
  rw [hdet, hcp]
  simp only [if_true]

theorem merge_step_qual (n : Int) (hn : 3 ≤ n) (cache : Cache)
    (acc : List VItem) (pid : String) (vids : List VItem)
    (hpv : cache.plVideos pid = some vids)
    (hq : (vids.length : Int) < n) :
    merge_step n (cache, acc) pid
      = (removeMergedPlaylist cache pid).map (fun c => (c, acc ++ vids)) := by
  unfold merge_step
  dsimp only
  rw [if_pos hn, hpv]
  simp only [if_pos hq]

theorem merge_step_nonqual (n : Int) (hn : 3 ≤ n) (cache : Cache)
    (acc : List VItem) (pid : String) (vids : List VItem)
    (hpv : cache.plVideos pid = some vids)
    (hq : ¬ (vids.length : Int) < n) :
    merge_step n (cache, acc) pid = .ok (cache, acc) := by
  unfold merge_step
  dsimp only
  rw [if_pos hn, hpv]
  simp only [if_neg hq]

theorem merge_loop_spec (n : Int) (hn : 3 ≤ n) (vl : String → List VItem) :
    ∀ (rest : List String) (cache : Cache) (acc : List VItem)
      (cur : List String),
      (∀ pid ∈ rest, cache.plVideos pid = some (vl pid)) →
      (∀ pid ∈ rest, cache.plDetailPresent pid = true) →
      cache.chPlaylists = some (.list cur) →
      rest.Nodup →
      (∀ pid ∈ rest, pid ∈ cur) →
      ∃ cache' cur',
        rest.foldlM (merge_step n) (cache, acc)
          = .ok (cache', acc ++ (rest.filter
              (fun pid => decide (((vl pid).length : Int) < n))).flatMap vl)
        ∧ (∀ x, cache'.plVideos x =
            if x ∈ rest ∧ ((vl x).length : Int) < n then none
            else cache.plVideos x)
        ∧ (∀ x, cache'.plDetailPresent x =
            if x ∈ rest ∧ ((vl x).length : Int) < n then false
            else cache.plDetailPresent x)
        ∧ cache'.chPlaylists = some (.list cur')
        ∧ cache'.chJson = cache.chJson
        ∧ cache'.customDetail = cache.customDetail
        ∧ cache'.customVideos = cache.customVideos := by
  intro rest
  induction rest with
  | nil =>
      intro cache acc cur _ _ hcp _ _
      refine ⟨cache, cur, ?_, ?_, ?_, hcp, rfl, rfl, rfl⟩
      · simp [List.foldlM_nil]
        rfl
      · intro x
        rw [if_neg]
        simp
      · intro x
        rw [if_neg]
        simp
  | cons pid rest' ih =>
      intro cache acc cur hpv hdet hcp hnd hsub
      have hpid : cache.plVideos pid = some (vl pid) := hpv pid (by simp)
      have hpdet : cache.plDetailPresent pid = true := hdet pid (by simp)
      have hpmem : pid ∈ cur := hsub pid (by simp)
      have hnd' : rest'.Nodup := (List.nodup_cons.1 hnd).2
      have hpid_not : pid ∉ rest' := (List.nodup_cons.1 hnd).1
      rw [List.foldlM_cons]
      by_cases hq : ((vl pid).length : Int) < n
      · rw [merge_step_qual n hn cache acc pid (vl pid) hpid hq,
          removeMergedPlaylist_ok cache pid cur hpdet hcp hpmem]
        set cache3 : Cache :=
          { plVideos := fun x => if x = pid then none else cache.plVideos x,
            plDetailPresent := fun x =>
              if x = pid then false else cache.plDetailPresent x,
            chPlaylists := some (.list (cur.erase pid)),
            chJson := cache.chJson,
            customDetail := cache.customDetail,
            customVideos := cache.customVideos } with hc3
        have hbind : ((Except.map (fun c => (c, acc ++ vl pid))
              (Except.ok cache3) : Except PyErr (Cache × List VItem)) >>=
              fun st => rest'.foldlM (merge_step n) st)
            = rest'.foldlM (merge_step n) (cache3, acc ++ vl pid) := rfl
        rw [hbind]
        have hpv3 : ∀ p ∈ rest', cache3.plVideos p = some (vl p) := by
          intro p hp
          have hne : p ≠ pid := fun he => hpid_not (he ▸ hp)
          simp only [hc3]
          rw [if_neg hne]
          exact hpv p (by simp [hp])
        have hdet3 : ∀ p ∈ rest', cache3.plDetailPresent p = true := by
          intro p hp
          have hne : p ≠ pid := fun he => hpid_not (he ▸ hp)
          simp only [hc3]
          rw [if_neg hne]
          exact hdet p (by simp [hp])
        have hcp3 : cache3.chPlaylists = some (.list (cur.erase pid)) := rfl
        have hsub3 : ∀ p ∈ rest', p ∈ cur.erase pid := by
          intro p hp
          have hne : p ≠ pid := fun he => hpid_not (he ▸ hp)
          exact (List.mem_erase_of_ne hne).2 (hsub p (by simp [hp]))
        obtain ⟨cache', cur', heq, hpv', hdet', hcp', hcj', hcd', hcv'⟩ :=
          ih cache3 (acc ++ vl pid) (cur.erase pid) hpv3 hdet3 hcp3 hnd' hsub3
        refine ⟨cache', cur', ?_, ?_, ?_, hcp', by rw [hcj'], by rw [hcd'],
          by rw [hcv']⟩
        · have hfilter : (pid :: rest').filter
              (fun p => decide (((vl p).length : Int) < n))
              = pid :: rest'.filter
                  (fun p => decide (((vl p).length : Int) < n)) := by
            rw [List.filter_cons]
            simp [hq]
          rw [heq, hfilter]
          simp [List.append_assoc]
        · intro x
          rw [hpv' x]
          by_cases hcond : x ∈ rest' ∧ ((vl x).length : Int) < n
          · rw [if_pos hcond,
              if_pos ⟨List.mem_cons_of_mem _ hcond.1, hcond.2⟩]
          · rw [if_neg hcond]
            by_cases hxp : x = pid
            · subst hxp
              rw [if_pos ⟨by simp, hq⟩]
              simp [hc3]
            · rw [if_neg (fun hco => by
                rcases List.mem_cons.1 hco.1 with he | hm
                · exact hxp he
                · exact hcond ⟨hm, hco.2⟩)]
              simp [hc3, hxp]
        · intro x
          rw [hdet' x]
          by_cases hcond : x ∈ rest' ∧ ((vl x).length : Int) < n
          · rw [if_pos hcond,
              if_pos ⟨List.mem_cons_of_mem _ hcond.1, hcond.2⟩]
          · rw [if_neg hcond]
            by_cases hxp : x = pid
            · subst hxp
              rw [if_pos ⟨by simp, hq⟩]
              simp [hc3]
            · rw [if_neg (fun hco => by
                rcases List.mem_cons.1 hco.1 with he | hm
                · exact hxp he
                · exact hcond ⟨hm, hco.2⟩)]
              simp [hc3, hxp]
      · rw [merge_step_nonqual n hn cache acc pid (vl pid) hpid hq]
        have hbind : ((Except.ok (cache, acc) :
            Except PyErr (Cache × List VItem)) >>=
              fun st => rest'.foldlM (merge_step n) st)
            = rest'.foldlM (merge_step n) (cache, acc) := rfl
        rw [hbind]
        obtain ⟨cache', cur', heq, hpv', hdet', hcp', hcj', hcd', hcv'⟩ :=
          ih cache acc cur (fun p hp => hpv p (by simp [hp]))
            (fun p hp => hdet p (by simp [hp])) hcp hnd'
            (fun p hp => hsub p (by simp [hp]))
        refine ⟨cache', cur', ?_, ?_, ?_, hcp', hcj', hcd', hcv'⟩
        · have hfilter : (pid :: rest').filter
              (fun p => decide (((vl p).length : Int) < n))
              = rest'.filter
                  (fun p => decide (((vl p).length : Int) < n)) := by
            rw [List.filter_cons]
            simp [hq]
          rw [heq, hfilter]
        · intro x
          rw [hpv' x]
          by_cases hcond : x ∈ rest' ∧ ((vl x).length : Int) < n
          · rw [if_pos hcond,
              if_pos ⟨List.mem_cons_of_mem _ hcond.1, hcond.2⟩]
          · rw [if_neg hcond, if_neg]
            intro ⟨hmem2, hq2⟩
            rcases List.mem_cons.1 hmem2 with he | hm
            · exact hq (he ▸ hq2)
            · exact hcond ⟨hm, hq2⟩
        · intro x
          rw [hdet' x]
          by_cases hcond : x ∈ rest' ∧ ((vl x).length : Int) < n
          · rw [if_pos hcond,
              if_pos ⟨List.mem_cons_of_mem _ hcond.1, hcond.2⟩]
          · rw [if_neg hcond, if_neg]
            intro ⟨hmem2, hq2⟩
            rcases List.mem_cons.1 hmem2 with he | hm
            · exact hq (he ▸ hq2)
            · exact hcond ⟨hm, hq2⟩

theorem merge_finish_spec (n : Int) (hn : 3 ≤ n) (st1 : Cache × List VItem)
    (chj : ChannelJson) (upl : List VItem) (cur' : List String)
    (hcj : st1.1.chJson = some chj)
    (hupv : st1.1.plVideos chj.uploads = some upl)
    (hupdet : st1.1.plDetailPresent chj.uploads = true)
    (hcp : st1.1.chPlaylists = some (.list cur')) :
    ∃ cacheF,
      merge_finish n st1 = .ok (cacheF, .customDoc) ∧
      cacheF.customVideos = some (renumber (dedupByVideoId
        (st1.2 ++ (if (upl.length : Int) < n then upl else [])))) ∧
      (∀ x, x ≠ chj.uploads → cacheF.plVideos x = st1.1.plVideos x) ∧
      (¬ (upl.length : Int) < n →
        cacheF.plVideos chj.uploads = st1.1.plVideos chj.uploads) := by
  have hn0 : ¬ n = 0 := by omega
  unfold merge_finish
  dsimp only
  rw [hcj]
  dsimp only
  rw [if_neg hn0, if_pos hn, hupv]
  dsimp only
  have hbindok : ∀ {β : Type} (b0 : Bool) (f : Bool → Except PyErr β),
      ((Except.ok b0 : Except PyErr Bool) >>= f) = f b0 := fun _ _ => rfl
  by_cases hq : (upl.length : Int) < n
  · rw [if_pos hq]
    have hq' : decide ((upl.length : Int) < n) = true := decide_eq_true hq
    rw [hq', hbindok]
    simp only [if_true]
    rw [removeUploadsPlaylist_ok st1.1 chj.uploads cur' hupdet hcp]
    refine ⟨_, rfl, by simp, ?_, ?_⟩
    · intro x hx
      simp only
      rw [if_neg hx]
    · intro hq2
      exact absurd hq hq2
  · rw [if_neg hq]
    have hq' : decide ((upl.length : Int) < n) = false :=
      decide_eq_false hq
    rw [hq', hbindok]
    simp only [Bool.false_eq_true, if_false]
    refine ⟨_, rfl, by simp, fun x _ => rfl, fun _ => hupv⟩

/-- C6: for a merge with `optimize_number >= 3` over a well-formed
cache (every listed playlist's video list and detail file cached, the
channel document cached, the uploads playlist cached and not among the
listed playlists, no duplicate entries), the video items persisted
under the synthetic playlist's video-list key are exactly the
concatenation of the video lists of the playlists whose cached video
count is strictly below the threshold (in order), plus the uploads list
iff it individually qualifies, de-duplicated by video id with the first
occurrence winning and positions renumbered from zero; every
non-qualifying playlist's cached video list (count `>=` the threshold,
in particular count equal to it) is left in place. -/
theorem c6_merge_playlists_threshold (n : Int) (hn : 3 ≤ n)
    (items : List String) (cache : Cache) (vl : String → List VItem)
    (chj : ChannelJson)
    (hchj : cache.chJson = some chj)
    (hvl : ∀ pid ∈ items, cache.plVideos pid = some (vl pid))
    (hdet : ∀ pid ∈ items, cache.plDetailPresent pid = true)
    (hupv : cache.plVideos chj.uploads = some (vl chj.uploads))
    (hupdet : cache.plDetailPresent chj.uploads = true)
    (hcp : cache.chPlaylists = some (.list items))
    (hnd : items.Nodup)
    (hni : chj.uploads ∉ items) :
    ∃ cacheF,
      merge_playlists items n cache = .ok (cacheF, .customDoc) ∧
      cacheF.customVideos = some (renumber (dedupByVideoId
        (mergedSpec vl items chj.uploads n))) ∧
      (∀ pid ∈ items, ¬ ((vl pid).length : Int) < n →
        cacheF.plVideos pid = some (vl pid)) ∧
      (¬ ((vl chj.uploads).length : Int) < n →
        cacheF.plVideos chj.uploads = some (vl chj.uploads)) ∧
      ((dedupByVideoId (mergedSpec vl items chj.uploads n)).map
        (fun x => x.videoId)).Nodup ∧
      (dedupByVideoId (mergedSpec vl items chj.uploads n)).Sublist
        (mergedSpec vl items chj.uploads n) ∧
      (∀ v, (dedupByVideoId (mergedSpec vl items chj.uploads n)).find?
          (fun x => x.videoId == v)
        = (mergedSpec vl items chj.uploads n).find?
          (fun x => x.videoId == v)) ∧
      (renumber (dedupByVideoId (mergedSpec vl items chj.uploads n))).map
          (fun x => x.position)
        = List.range
            (dedupByVideoId (mergedSpec vl items chj.uploads n)).length ∧
      (renumber (dedupByVideoId (mergedSpec vl items chj.uploads n))).map
          (fun x => x.videoId)
        = (dedupByVideoId (mergedSpec vl items chj.uploads n)).map
          (fun x => x.videoId) := by
  obtain ⟨cache1, cur', heq, hpv1, hdet1, hcp1, hcj1, hcd1, hcv1⟩ :=
    merge_loop_spec n hn vl items cache [] items hvl hdet hcp hnd
      (fun p hp => hp)
  have hnotup : ¬ (chj.uploads ∈ items ∧
      ((vl chj.uploads).length : Int) < n) := fun hco => hni hco.1
  have hupv1 : cache1.plVideos chj.uploads = some (vl chj.uploads) := by
    rw [hpv1, if_neg hnotup]
    exact hupv
  have hupdet1 : cache1.plDetailPresent chj.uploads = true := by
    rw [hdet1, if_neg hnotup]
    exact hupdet
  have hcj1' : cache1.chJson = some chj := by rw [hcj1]; exact hchj
  obtain ⟨cacheF, hfin, hcv, hretV, hretU⟩ :=
    merge_finish_spec n hn
      (cache1,
        [] ++ (items.filter
          (fun pid => decide (((vl pid).length : Int) < n))).flatMap vl)
      chj (vl chj.uploads) cur' hcj1' hupv1 hupdet1 hcp1
  refine ⟨cacheF, ?_, ?_, ?_, ?_,
    (dedupGo_map_nodup _ []).1, dedupGo_sublist _ [],
    (fun v => dedupGo_find? _ [] v (by simp)),
    renumber_map_position _, by rw [renumber, renumberFrom_map_videoId]⟩
  · unfold merge_playlists
    rw [heq]
    have hb : ((Except.ok (cache1,
        [] ++ (items.filter
          (fun pid => decide (((vl pid).length : Int) < n))).flatMap vl) :
        Except PyErr (Cache × List VItem)) >>= merge_finish n)
        = merge_finish n (cache1,
          [] ++ (items.filter
            (fun pid => decide (((vl pid).length : Int) < n))).flatMap vl)
        := rfl
    rw [hb, hfin]
  · rw [hcv]
    simp [mergedSpec]
  · intro pid hpid hnq
    have hne : pid ≠ chj.uploads := fun he => hni (he ▸ hpid)
    rw [hretV pid hne]
    show cache1.plVideos pid = some (vl pid)
    rw [hpv1, if_neg (fun hco => hnq hco.2)]
    exact hvl pid hpid
  · intro hnq
    rw [hretU hnq]
    exact hupv1

/-- A concrete video-list assignment realising the spec's merge test
case: playlists of sizes 2, 5, 10 and an uploads playlist of size 2
sharing one video id with the size-2 playlist. -/
def vlW : String → List VItem := fun pid =>
  if pid = "p2" then [⟨"a1", 0⟩, ⟨"a2", 1⟩]
  else if pid = "p5" then
    [⟨"b1", 0⟩, ⟨"b2", 1⟩, ⟨"b3", 2⟩, ⟨"b4", 3⟩, ⟨"b5", 4⟩]
  else if pid = "p10" then
    [⟨"c1", 0⟩, ⟨"c2", 1⟩, ⟨"c3", 2⟩, ⟨"c4", 3⟩, ⟨"c5", 4⟩,
     ⟨"c6", 5⟩, ⟨"c7", 6⟩, ⟨"c8", 7⟩, ⟨"c9", 8⟩, ⟨"c10", 9⟩]
  else if pid = "up" then [⟨"a1", 7⟩, ⟨"u1", 8⟩]
  else []

/-- The cache state for the merge test case. -/
def mergeCacheW : Cache :=
  { plVideos := fun pid => some (vlW pid),
    plDetailPresent := fun _ => true,
    chPlaylists := some (.list ["p2", "p5", "p10"]),
    chJson := some ⟨"up", "Chan"⟩,
    customDetail := none,
    customVideos := none }

/-- Projection of a merge result onto the persisted custom video list. -/
def customVideosOf (r : Except PyErr (Cache × ChPlaylists)) :
    Option (List VItem) :=
  match r with
  | .ok st => st.1.customVideos
  | .error _ => none

theorem c6_merge_playlists_threshold_witness :
    customVideosOf (merge_playlists ["p2", "p5", "p10"] 5 mergeCacheW)
      = some [⟨"a1", 0⟩, ⟨"a2", 1⟩, ⟨"u1", 2⟩] := by
  obtain ⟨cacheF, hEq, hCV, _⟩ :=
    c6_merge_playlists_threshold 5 (by decide) ["p2", "p5", "p10"]
      mergeCacheW vlW ⟨"up", "Chan"⟩ rfl (fun pid _ => rfl)
      (fun pid _ => rfl) rfl rfl rfl (by decide) (by decide)
  rw [hEq]
  show cacheF.customVideos = some [⟨"a1", 0⟩, ⟨"a2", 1⟩, ⟨"u1", 2⟩]
  rw [hCV]
  rfl

end FlaskMediaDL
